import Mathlib

/-!
Verification of the ToDo_App backend (Express + Mongoose) against its
natural-language specification.  The definitions below are a shallow
embedding of the backend route handlers and Mongoose schema hooks:

  * `src/backend/routes/todoRoutes.js`  — project and task routes
  * `src/backend/routes/messageRoutes.js` — chat routes
  * `src/unnamed/part_003` — the Task schema (phase history, pre-save seed)
  * `src/unnamed/part_005` — the Project schema (default phase list)

Identifiers (users, teams, projects, tasks) are modelled as `Nat`;
timestamps as `Int` (milliseconds since the epoch, as JavaScript `Date`
arithmetic produces); the document store as a `List` of documents.  The
several `new Date()` calls inside one request handler are modelled by a
single `now` parameter.  Persistence of a `save()` call is modelled by a
boolean `saveOk` flag: `false` means the awaited save rejected and control
jumped to the route's catch block.
-/

namespace ToDoApp

/-- One entry of a task's phase history
    (`taskSchema.phaseHistory`, src/unnamed/part_003 lines 37-60).
    `duration` is the optional number of minutes spent in the previous
    phase, absent until backfilled by the next move. -/
structure PhaseEntry where
  phase : String
  movedBy : Nat
  movedAt : Int
  duration : Option Int
  notes : String
deriving Repr, DecidableEq, Inhabited

/-- A task document (`taskSchema`, src/unnamed/part_003).  Only the fields
    the route handlers read or write are carried. -/
structure Task where
  id : Nat
  projectId : Nat
  title : String
  description : String
  assignedTo : List Nat
  createdBy : Nat
  currentPhase : String
  phaseHistory : List PhaseEntry
  status : String
  completedAt : Option Int
deriving Repr, DecidableEq, Inhabited

/-- A project phase after Mongoose casting
    (`projectSchema.phases`, src/unnamed/part_005 lines 27-42). -/
structure Phase where
  name : String
  order : Int
  color : String
deriving Repr, DecidableEq

/-- A phase as supplied in a request body: `color` is optional and the
    schema fills in the default `#3b82f6` when it is absent. -/
structure PhaseInput where
  name : String
  order : Int
  color : Option String
deriving Repr, DecidableEq

/-- Mongoose casting of a supplied phase subdocument: the `color` default
    of the schema is applied when the field is absent. -/
def castPhase (p : PhaseInput) : Phase :=
  { name := p.name, order := p.order, color := p.color.getD "#3b82f6" }

/-- A project document (`projectSchema`, src/unnamed/part_005). -/
structure Project where
  id : Nat
  name : String
  description : String
  createdBy : Nat
  members : List Nat
  phases : List Phase
  status : String
deriving Repr, DecidableEq

/-- A team document (`teamSchema`): name, creator, members. -/
structure Team where
  id : Nat
  name : String
  createdBy : Nat
  members : List Nat
deriving Repr, DecidableEq

/-- A chat message document (`Message.js`). `teamId = none` is the
    general channel. -/
structure Message where
  id : Nat
  username : String
  userId : Nat
  message : String
  teamId : Option Nat
  readBy : List Nat
  createdAt : Int
deriving Repr, DecidableEq

/-- Realtime events emitted through `req.io` by the route handlers.
    The `room` is the socket.io room the event is scoped to. -/
inductive Event where
  | taskCreated (room : String) (taskId : Nat)
  | taskMoved (room : String) (taskId : Nat) (movedBy : String)
  | taskUpdated (room : String) (taskId : Nat)
  | taskDeleted (room : String) (taskId : Nat)
deriving Repr, DecidableEq

/-- Result of one route handler: the HTTP status code sent, the task
    store after the request, and the realtime events emitted. -/
structure TaskRouteResult where
  status : Nat
  tasks : List Task
  events : List Event
deriving Repr, DecidableEq

/-- `Task.findById`: first task in the store with the given id
    (Mongo ids are unique, so order is immaterial). -/
def findTask (store : List Task) (taskId : Nat) : Option Task :=
  store.find? (fun t => t.id == taskId)

/-- `Project.findById`. -/
def findProject (store : List Project) (projectId : Nat) : Option Project :=
  store.find? (fun p => p.id == projectId)

/-- Replace the task with the given id by the updated document
    (the effect of a successful `task.save()` / `findByIdAndUpdate`). -/
def saveTask (store : List Task) (t : Task) : List Task :=
  store.map (fun u => if u.id == t.id then t else u)

/-- Backfill of the final history entry's `duration` field
    (todoRoutes.js lines 522-531): `lastPhaseEntry.duration =
    Math.floor((now - lastPhaseEntry.movedAt) / 60000)`.  `Math.floor`
    of the real quotient is floor division, `Int.fdiv`.  An empty
    history is left unchanged (the code guards on `if (lastPhaseEntry)`). -/
def backfillLast (now : Int) : List PhaseEntry → List PhaseEntry
  | [] => []
  | [e] => [{ e with duration := some ((now - e.movedAt).fdiv 60000) }]
  | e :: e' :: rest => e :: backfillLast now (e' :: rest)

/-- The in-memory mutation a successful move performs on the task
    (todoRoutes.js lines 522-549): backfill the previous entry's
    duration, push a new history entry (duration absent, `notes || ''`),
    set `currentPhase`, and derive `status` / `completedAt` from the
    target phase. -/
def applyMove (task : Task) (userId : Nat) (toPhase : String)
    (notes : Option String) (now : Int) : Task :=
  let hist := backfillLast now task.phaseHistory
  let hist := hist ++ [{ phase := toPhase, movedBy := userId, movedAt := now,
                         duration := none, notes := notes.getD "" }]
  let task := { task with phaseHistory := hist, currentPhase := toPhase }
  if toPhase = "Done" then
    { task with status := "completed", completedAt := some now }
  else if toPhase = "In Progress" then
    { task with status := "in-progress" }
  else
    task

/-- `PUT /api/projects/:projectId/tasks/:taskId/move`
    (todoRoutes.js lines 491-577).  404 when the task is absent, 400 when
    it belongs to a different project, 403 when the requester is not in
    `assignedTo`; otherwise the task is mutated, saved, and a `taskMoved`
    event is emitted to the project room — only after the save succeeded
    (`saveOk`); a failed save reaches the catch block: 500, nothing
    persisted, nothing emitted. -/
def moveTask (store : List Task) (projectId taskId userId : Nat)
    (username : String) (toPhase : String) (notes : Option String)
    (now : Int) (saveOk : Bool) : TaskRouteResult :=
  match findTask store taskId with
  | none => { status := 404, tasks := store, events := [] }
  | some task =>
    if task.projectId ≠ projectId then
      { status := 400, tasks := store, events := [] }
    else if ¬ task.assignedTo.any (fun u => u == userId) then
      { status := 403, tasks := store, events := [] }
    else
      let task' := applyMove task userId toPhase notes now
      if saveOk then
        { status := 200, tasks := saveTask store task',
          events := [Event.taskMoved ("project-" ++ toString projectId)
                       task'.id username] }
      else
        { status := 500, tasks := store, events := [] }

end ToDoApp

namespace ToDoApp

/-- C1: a phase-move request on an existing task of the addressed project
    by an authenticated requester who is not in the task's assigned set —
    whatever the requester's team or project membership — answers 403
    Forbidden, leaves the task store unchanged, and emits no event. -/
theorem move_by_unassigned_forbidden
    (store : List Task) (projectId taskId userId : Nat) (username : String)
    (toPhase : String) (notes : Option String) (now : Int) (saveOk : Bool)
    (task : Task) (hfind : findTask store taskId = some task)
    (hproj : task.projectId = projectId)
    (hnot : userId ∉ task.assignedTo) :
    moveTask store projectId taskId userId username toPhase notes now saveOk
      = { status := 403, tasks := store, events := [] } := by
  unfold moveTask
  rw [hfind]
  simp only [hproj]
  have hany : task.assignedTo.any (fun u => u == userId) = false := by
    rw [List.any_eq_false]
    intro u hu
    simp only [beq_iff_eq]
    intro h
    exact hnot (h ▸ hu)
  simp [hany]

/-- A concrete sample task, assigned to user 5 only, used by witnesses. -/
def sampleTask : Task :=
  { id := 1, projectId := 2, title := "t", description := "",
    assignedTo := [5], createdBy := 5, currentPhase := "Backlog",
    phaseHistory := [], status := "pending", completedAt := none }

/-- Witness for C1: a concrete task assigned to user 5 only; user 7's
    move attempt is rejected with 403, the store untouched, no events. -/
theorem move_by_unassigned_forbidden_witness :
    (findTask [sampleTask] 1 = some sampleTask)
    ∧ (7 ∉ sampleTask.assignedTo)
    ∧ moveTask [sampleTask] 2 1 7 "eve" "Done" none 1000 true
        = { status := 403, tasks := [sampleTask], events := [] } := by
  refine ⟨by decide, by decide, ?_⟩
  exact move_by_unassigned_forbidden [sampleTask] 2 1 7 "eve" "Done" none
    1000 true sampleTask (by decide) (by decide) (by decide)

/-- C3: status derivation of a successful move (todoRoutes.js 543-549).
    Moving to exactly "Done" sets status "completed" and stamps
    `completedAt` with the move time; moving to exactly "In Progress"
    sets status "in-progress"; any other target phase leaves both the
    status and the completion timestamp as they were. -/
theorem move_status_derivation
    (task : Task) (userId : Nat) (toPhase : String) (notes : Option String)
    (now : Int) :
    (toPhase = "Done" →
        (applyMove task userId toPhase notes now).status = "completed"
        ∧ (applyMove task userId toPhase notes now).completedAt = some now)
    ∧ (toPhase = "In Progress" →
        (applyMove task userId toPhase notes now).status = "in-progress")
    ∧ (toPhase ≠ "Done" → toPhase ≠ "In Progress" →
        (applyMove task userId toPhase notes now).status = task.status
        ∧ (applyMove task userId toPhase notes now).completedAt
            = task.completedAt) := by
  refine ⟨fun hd => ?_, fun hp => ?_, fun hd hp => ?_⟩
  · simp [applyMove, hd]
  · simp [applyMove, hp]
  · simp [applyMove, hd, hp]

/-- Witness for C3 at the concrete phases "Done", "In Progress" and
    "Review" on the sample task. -/
theorem move_status_derivation_witness :
    ((applyMove sampleTask 5 "Done" none 1000).status = "completed"
      ∧ (applyMove sampleTask 5 "Done" none 1000).completedAt = some 1000)
    ∧ (applyMove sampleTask 5 "In Progress" none 1000).status = "in-progress"
    ∧ ((applyMove sampleTask 5 "Review" none 1000).status = sampleTask.status
      ∧ (applyMove sampleTask 5 "Review" none 1000).completedAt
          = sampleTask.completedAt) :=
  ⟨(move_status_derivation sampleTask 5 "Done" none 1000).1 rfl,
   (move_status_derivation sampleTask 5 "In Progress" none 1000).2.1 rfl,
   (move_status_derivation sampleTask 5 "Review" none 1000).2.2
     (by decide) (by decide)⟩

/-- C6: emit-after-commit for the move route.  When the save fails the
    request fails wholesale — 500, store unchanged, no event — and in all
    cases a `taskMoved` event is emitted only if the save succeeded, so an
    uncommitted task state is never broadcast. -/
theorem move_emit_after_commit
    (store : List Task) (projectId taskId userId : Nat) (username : String)
    (toPhase : String) (notes : Option String) (now : Int) (saveOk : Bool) :
    (saveOk = false →
        (moveTask store projectId taskId userId username toPhase notes now
            saveOk).events = []
        ∧ ((∃ task, findTask store taskId = some task
              ∧ task.projectId = projectId
              ∧ userId ∈ task.assignedTo) →
            moveTask store projectId taskId userId username toPhase notes now
              saveOk
            = { status := 500, tasks := store, events := [] }))
    ∧ ((moveTask store projectId taskId userId username toPhase notes now
          saveOk).events ≠ [] → saveOk = true) := by
  constructor
  · rintro rfl
    constructor
    · unfold moveTask
      cases hfind : findTask store taskId with
      | none => simp
      | some task =>
        by_cases hproj : task.projectId = projectId
        · by_cases hass : task.assignedTo.any (fun u => u == userId)
          · simp [hproj, hass]
          · simp [hproj, hass]
        · simp [hproj]
    · rintro ⟨task, hfind, hproj, hmem⟩
      unfold moveTask
      rw [hfind]
      have hass : task.assignedTo.any (fun u => u == userId) = true := by
        rw [List.any_eq_true]
        exact ⟨userId, hmem, by simp⟩
      simp [hproj, hass]
  · intro hev
    cases saveOk with
    | true => rfl
    | false =>
      exfalso
      apply hev
      unfold moveTask
      cases hfind : findTask store taskId with
      | none => simp
      | some task =>
        by_cases hproj : task.projectId = projectId
        · by_cases hass : task.assignedTo.any (fun u => u == userId)
          · simp [hproj, hass]
          · simp [hproj, hass]
        · simp [hproj]

/-- Witness for C6: on the sample task, wired for success but with a
    failing save, the move answers 500 with no events; the events list of
    a successful run is nonempty only because the save succeeded. -/
theorem move_emit_after_commit_witness :
    ((false = false) ∧
      moveTask [sampleTask] 2 1 5 "ann" "Done" none 1000 false
        = { status := 500, tasks := [sampleTask], events := [] })
    ∧ ((moveTask [sampleTask] 2 1 5 "ann" "Done" none 1000 true).events ≠ []
        → (true : Bool) = true) :=
  ⟨⟨rfl,
    ((move_emit_after_commit [sampleTask] 2 1 5 "ann" "Done" none 1000
        false).1 rfl).2
      ⟨sampleTask, by decide, by decide, by decide⟩⟩,
   (move_emit_after_commit [sampleTask] 2 1 5 "ann" "Done" none 1000
      true).2⟩

/-- Input of one phase-move, for iterating the move operation. -/
structure MoveInput where
  userId : Nat
  toPhase : String
  notes : Option String
  now : Int
deriving Repr, DecidableEq

/-- Iterate the in-memory move mutation over a list of moves (a sequence
    of successful phase-move operations on the same task). -/
def moveSeq (task : Task) (moves : List MoveInput) : Task :=
  moves.foldl (fun t m => applyMove t m.userId m.toPhase m.notes m.now) task

/-- The duration population pattern of a history: exactly the entries at
    indices 0..length-2 have a populated `duration`; the final entry's is
    absent. -/
def durInvariant (hist : List PhaseEntry) : Prop :=
  ∀ i, i < hist.length →
    (((hist.getD i default).duration.isSome = true) ↔ i + 1 < hist.length)

/-- Recursive form of the duration pattern: every entry but the last has
    a populated duration, and the last entry's duration is absent. -/
def durShape : List PhaseEntry → Prop
  | [] => True
  | [e] => e.duration = none
  | e :: e' :: rest => e.duration.isSome = true ∧ durShape (e' :: rest)

theorem backfillLast_length (now : Int) (hist : List PhaseEntry) :
    (backfillLast now hist).length = hist.length := by
  induction hist with
  | nil => rfl
  | cons e rest ih =>
    cases rest with
    | nil => rfl
    | cons e' rest' => simpa [backfillLast] using ih

theorem backfillLast_eq (now : Int) (hist : List PhaseEntry)
    (hne : hist ≠ []) :
    backfillLast now hist
      = hist.dropLast
        ++ [{ hist.getLast hne with
              duration := some ((now - (hist.getLast hne).movedAt).fdiv
                60000) }] := by
  induction hist with
  | nil => exact absurd rfl hne
  | cons e rest ih =>
    cases rest with
    | nil => simp [backfillLast]
    | cons e' rest' =>
      have h' : e' :: rest' ≠ [] := by simp
      simp only [backfillLast, List.dropLast_cons₂, List.getLast_cons h',
        List.cons_append, List.cons.injEq, true_and]
      exact ih h'

theorem applyMove_phaseHistory (task : Task) (userId : Nat)
    (toPhase : String) (notes : Option String) (now : Int) :
    (applyMove task userId toPhase notes now).phaseHistory
      = backfillLast now task.phaseHistory
        ++ [{ phase := toPhase, movedBy := userId, movedAt := now,
              duration := none, notes := notes.getD "" }] := by
  unfold applyMove
  split
  · rfl
  · split
    · rfl
    · rfl

theorem durShape_backfill_append (now : Int) (hist : List PhaseEntry)
    (e : PhaseEntry) (hs : durShape hist) (he : e.duration = none) :
    durShape (backfillLast now hist ++ [e]) := by
  induction hist with
  | nil => simpa [backfillLast, durShape] using he
  | cons a rest ih =>
    cases rest with
    | nil =>
      simp only [backfillLast, List.cons_append, List.nil_append]
      exact ⟨rfl, he⟩
    | cons b rest' =>
      have hshape : a.duration.isSome = true ∧ durShape (b :: rest') := hs
      have htail := ih hshape.2
      simp only [backfillLast, List.cons_append]
      cases hb : backfillLast now (b :: rest') ++ [e] with
      | nil =>
        exfalso
        have := congrArg List.length hb
        simp at this
      | cons x xs =>
        rw [hb] at htail
        exact ⟨hshape.1, htail⟩

theorem durShape_durInvariant (hist : List PhaseEntry)
    (hs : durShape hist) : durInvariant hist := by
  induction hist with
  | nil => intro i hi; simp at hi
  | cons a rest ih =>
    cases rest with
    | nil =>
      intro i hi
      simp only [List.length_cons, List.length_nil] at hi
      have hi0 : i = 0 := by omega
      subst hi0
      simp [durShape] at hs
      simp [hs]
    | cons b rest' =>
      have hshape : a.duration.isSome = true ∧ durShape (b :: rest') := hs
      intro i hi
      cases i with
      | zero =>
        refine iff_of_true ?_ ?_
        · simpa [List.getD_cons_zero] using hshape.1
        · simp only [List.length_cons]
          omega
      | succ j =>
        have hj : j < (b :: rest').length := by
          simpa [Nat.succ_lt_succ_iff] using hi
        have := ih hshape.2 j hj
        simpa [List.getD_cons_succ, Nat.succ_lt_succ_iff] using this

theorem moveSeq_length (task : Task) (moves : List MoveInput) :
    (moveSeq task moves).phaseHistory.length
      = task.phaseHistory.length + moves.length := by
  induction moves generalizing task with
  | nil => simp [moveSeq]
  | cons m ms ih =>
    have hstep : (applyMove task m.userId m.toPhase m.notes
        m.now).phaseHistory.length = task.phaseHistory.length + 1 := by
      rw [applyMove_phaseHistory]
      simp [backfillLast_length]
    calc (moveSeq task (m :: ms)).phaseHistory.length
        = (moveSeq (applyMove task m.userId m.toPhase m.notes m.now)
            ms).phaseHistory.length := rfl
      _ = (applyMove task m.userId m.toPhase m.notes
            m.now).phaseHistory.length + ms.length := ih _
      _ = task.phaseHistory.length + (ms.length + 1) := by rw [hstep]; omega
      _ = task.phaseHistory.length + (m :: ms).length := by simp

theorem moveSeq_durShape (task : Task) (moves : List MoveInput)
    (hs : durShape task.phaseHistory) :
    durShape (moveSeq task moves).phaseHistory := by
  induction moves generalizing task with
  | nil => exact hs
  | cons m ms ih =>
    have hstep : durShape (applyMove task m.userId m.toPhase m.notes
        m.now).phaseHistory := by
      rw [applyMove_phaseHistory]
      exact durShape_backfill_append _ _ _ hs rfl
    exact ih _ hstep

/-- Two concrete moves used by the C2 witness. -/
def sampleMoves : List MoveInput :=
  [{ userId := 5, toPhase := "In Progress", notes := none, now := 60000 },
   { userId := 5, toPhase := "Done", notes := none, now := 180000 }]

/-- Body of `POST /api/projects/:projectId/tasks`.  The handler spreads
    the whole request body into `Task.create({...req.body, projectId,
    createdBy})`, so every schema field — `phaseHistory` included — may be
    supplied by the client; absent fields take the schema defaults. -/
structure TaskCreateBody where
  title : String
  description : String
  assignedTo : List Nat
  currentPhase : Option String
  phaseHistory : List PhaseEntry
  status : Option String
deriving Repr, DecidableEq

/-- The document `Task.create` builds before the pre-save hook runs:
    body fields spread in, `projectId` and `createdBy` overridden by the
    route, schema defaults (`currentPhase` "Backlog", `status` "pending")
    applied to absent fields. -/
def mkTaskDoc (body : TaskCreateBody) (projectId userId newId : Nat) :
    Task :=
  { id := newId, projectId := projectId, title := body.title,
    description := body.description, assignedTo := body.assignedTo,
    createdBy := userId, currentPhase := body.currentPhase.getD "Backlog",
    phaseHistory := body.phaseHistory,
    status := body.status.getD "pending", completedAt := none }

/-- The Task pre-save hook (src/unnamed/part_003 lines 107-118): on a new
    document with an empty phase history, push the seed entry for the
    current phase, moved by the creator, noted "Task created". -/
def preSaveTask (isNew : Bool) (t : Task) (now : Int) : Task :=
  if isNew ∧ t.phaseHistory.length = 0 then
    { t with phaseHistory :=
        [{ phase := t.currentPhase, movedBy := t.createdBy, movedAt := now,
           duration := none, notes := "Task created" }] }
  else t

/-- `POST /api/projects/:projectId/tasks` (todoRoutes.js lines 433-486):
    404 when the project is absent, 403 when the requester is not the
    project creator, otherwise create the task (body spread + pre-save
    hook), store it and emit `taskCreated` to the project room. -/
def createTask (projects : List Project) (store : List Task)
    (projectId userId newId : Nat) (body : TaskCreateBody) (now : Int) :
    TaskRouteResult :=
  match findProject projects projectId with
  | none => { status := 404, tasks := store, events := [] }
  | some project =>
    if project.createdBy ≠ userId then
      { status := 403, tasks := store, events := [] }
    else
      let t := preSaveTask true (mkTaskDoc body projectId userId newId) now
      { status := 201, tasks := store ++ [t],
        events := [Event.taskCreated ("project-" ++ toString projectId)
                     newId] }

/-- A concrete sample project created by user 5. -/
def sampleProject : Project :=
  { id := 2, name := "p", description := "", createdBy := 5, members := [5],
    phases := [], status := "active" }

/-- A creation body that smuggles a two-entry phase history past the
    seed hook (the hook only fires on an empty history). -/
def smuggledBody : TaskCreateBody :=
  { title := "t", description := "", assignedTo := [5],
    currentPhase := none,
    phaseHistory :=
      [{ phase := "Done", movedBy := 5, movedAt := 0, duration := some 1,
         notes := "fake" },
       { phase := "Review", movedBy := 5, movedAt := 0, duration := none,
         notes := "fake" }],
    status := none }

/-- Counterexample for C7 as stated: the creation operation spreads the
    request body into the new document, so a body supplying a two-entry
    `phaseHistory` yields a created task (201) whose history has two
    entries, not the single seed entry. -/
theorem created_task_seed_counterexample :
    (createTask [sampleProject] [] 2 5 9 smuggledBody 0).status = 201
    ∧ ((createTask [sampleProject] [] 2 5 9 smuggledBody
          0).tasks.getD 0 default).phaseHistory.length = 2
    ∧ ¬ ((createTask [sampleProject] [] 2 5 9 smuggledBody
          0).tasks.getD 0 default).phaseHistory.length = 1 := by
  decide

/-- C7 amended: for every task created through the creation operation
    from a body that supplies no phase-history entries, the stored task's
    phase history is exactly one seed entry — its phase the task's initial
    current phase, its mover the creator, its note "Task created", its
    duration absent. -/
theorem created_task_seed
    (projects : List Project) (store : List Task)
    (projectId userId newId : Nat) (body : TaskCreateBody) (now : Int)
    (project : Project)
    (hfind : findProject projects projectId = some project)
    (hcreator : project.createdBy = userId)
    (hbody : body.phaseHistory = []) :
    createTask projects store projectId userId newId body now
      = { status := 201,
          tasks := store ++
            [{ id := newId, projectId := projectId, title := body.title,
               description := body.description,
               assignedTo := body.assignedTo, createdBy := userId,
               currentPhase := body.currentPhase.getD "Backlog",
               phaseHistory :=
                 [{ phase := body.currentPhase.getD "Backlog",
                    movedBy := userId, movedAt := now, duration := none,
                    notes := "Task created" }],
               status := body.status.getD "pending",
               completedAt := none }],
          events := [Event.taskCreated ("project-" ++ toString projectId)
                       newId] } := by
  unfold createTask
  rw [hfind]
  simp [hcreator, preSaveTask, mkTaskDoc, hbody]

/-- A creation body that supplies no phase history. -/
def plainBody : TaskCreateBody :=
  { title := "t", description := "", assignedTo := [5],
    currentPhase := none, phaseHistory := [], status := none }

/-- Witness for the amended C7 on a concrete project, creator and body. -/
theorem created_task_seed_witness :
    findProject [sampleProject] 2 = some sampleProject
    ∧ sampleProject.createdBy = 5
    ∧ plainBody.phaseHistory = []
    ∧ createTask [sampleProject] [] 2 5 9 plainBody 0
        = { status := 201,
            tasks := [{ id := 9, projectId := 2, title := "t",
                        description := "", assignedTo := [5],
                        createdBy := 5, currentPhase := "Backlog",
                        phaseHistory :=
                          [{ phase := "Backlog", movedBy := 5,
                             movedAt := 0, duration := none,
                             notes := "Task created" }],
                        status := "pending", completedAt := none }],
            events := [Event.taskCreated "project-2" 9] } := by
  refine ⟨by decide, by decide, by decide, ?_⟩
  have h := created_task_seed [sampleProject] [] 2 5 9 plainBody 0
    sampleProject (by decide) (by decide) (by decide)
  simpa [plainBody] using h

/-- Counterexample for C2 as stated: the task-creation operation spreads
    the request body into the document, so a creation supplying a
    two-entry `phaseHistory` yields a created task (201) whose history
    already has 2 entries — not 0+1 — and after one successful phase-move
    through the move route (200, by assignee 5) it has 3 entries — not
    1+1. -/
theorem phase_history_smuggled_counterexample :
    (createTask [sampleProject] [] 2 5 9 smuggledBody 0).status = 201
    ∧ ((createTask [sampleProject] [] 2 5 9 smuggledBody 0).tasks.getD 0
        default).phaseHistory.length = 2
    ∧ ¬ ((createTask [sampleProject] [] 2 5 9 smuggledBody 0).tasks.getD 0
        default).phaseHistory.length = 0 + 1
    ∧ (moveTask (createTask [sampleProject] [] 2 5 9 smuggledBody 0).tasks
        2 9 5 "ann" "Done" none 60000 true).status = 200
    ∧ ((moveTask (createTask [sampleProject] [] 2 5 9 smuggledBody 0).tasks
        2 9 5 "ann" "Done" none 60000 true).tasks.getD 0
        default).phaseHistory.length = 3
    ∧ ¬ ((moveTask (createTask [sampleProject] [] 2 5 9 smuggledBody
        0).tasks 2 9 5 "ann" "Done" none 60000 true).tasks.getD 0
        default).phaseHistory.length = 1 + 1 := by
  decide

/-- C2 amended: for every task created through the task-creation
    operation from a request body that supplies no phase-history entries,
    and every sequence of N successful phase-move operations on it, the
    phase history has exactly N+1 entries (the seed entry plus one
    appended per move) in which exactly the entries at indices 0..N-1
    have a populated duration; and each single move rewrites the history
    to: all previous entries unchanged except the last, whose duration is
    set to fdiv (now - movedAt) 60000 minutes, followed by one appended
    entry with duration absent. -/
theorem phase_history_after_moves
    (projects : List Project) (store : List Task)
    (projectId userId newId : Nat) (body : TaskCreateBody) (now : Int)
    (project : Project) (moves : List MoveInput)
    (hfind : findProject projects projectId = some project)
    (hcreator : project.createdBy = userId)
    (hbody : body.phaseHistory = []) :
    (createTask projects store projectId userId newId body now).tasks
      = store ++ [preSaveTask true (mkTaskDoc body projectId userId newId)
          now]
    ∧ (moveSeq (preSaveTask true (mkTaskDoc body projectId userId newId)
        now) moves).phaseHistory.length = moves.length + 1
    ∧ durInvariant (moveSeq (preSaveTask true (mkTaskDoc body projectId
        userId newId) now) moves).phaseHistory
    ∧ (∀ (task : Task) (uid : Nat) (toPhase : String)
        (notes : Option String) (t : Int)
        (hne : task.phaseHistory ≠ []),
        (applyMove task uid toPhase notes t).phaseHistory
          = task.phaseHistory.dropLast
            ++ [{ task.phaseHistory.getLast hne with
                  duration := some ((t
                    - (task.phaseHistory.getLast hne).movedAt).fdiv 60000) },
                { phase := toPhase, movedBy := uid, movedAt := t,
                  duration := none, notes := notes.getD "" }]) := by
  have ht0 : (preSaveTask true (mkTaskDoc body projectId userId newId)
      now).phaseHistory
      = [{ phase := body.currentPhase.getD "Backlog", movedBy := userId,
           movedAt := now, duration := none, notes := "Task created" }] := by
    simp [preSaveTask, mkTaskDoc, hbody]
  refine ⟨?_, ?_, ?_, ?_⟩
  · unfold createTask
    rw [hfind]
    simp [hcreator]
  · rw [moveSeq_length, ht0]
    simp [Nat.add_comm]
  · apply durShape_durInvariant
    apply moveSeq_durShape
    rw [ht0]
    rfl
  · intro task uid toPhase notes t hne
    rw [applyMove_phaseHistory, backfillLast_eq t task.phaseHistory hne]
    simp

/-- Witness for the amended C2: the task created from `plainBody` (no
    supplied history), after the two sample moves, has a three-entry
    history with exactly the first two durations populated. -/
theorem phase_history_after_moves_witness :
    findProject [sampleProject] 2 = some sampleProject
    ∧ sampleProject.createdBy = 5
    ∧ plainBody.phaseHistory = []
    ∧ (moveSeq (preSaveTask true (mkTaskDoc plainBody 2 5 9) 0)
        sampleMoves).phaseHistory.length = sampleMoves.length + 1
    ∧ durInvariant (moveSeq (preSaveTask true (mkTaskDoc plainBody 2 5 9)
        0) sampleMoves).phaseHistory :=
  ⟨by decide, by decide, by decide,
   (phase_history_after_moves [sampleProject] [] 2 5 9 plainBody 0
      sampleProject sampleMoves (by decide) (by decide) (by decide)).2.1,
   (phase_history_after_moves [sampleProject] [] 2 5 9 plainBody 0
      sampleProject sampleMoves (by decide) (by decide) (by decide)).2.2.1⟩

/-- The fixed default phase list the Project pre-save hook installs
    (src/unnamed/part_005 lines 61-73). -/
def defaultPhases : List Phase :=
  [{ name := "Backlog", order := 1, color := "#6b7280" },
   { name := "In Progress", order := 2, color := "#3b82f6" },
   { name := "Review", order := 3, color := "#f59e0b" },
   { name := "Testing", order := 4, color := "#8b5cf6" },
   { name := "Done", order := 5, color := "#10b981" }]

/-- The Project pre-save hook: a new document with no phases receives the
    default phase list; any non-empty phase list is left alone. -/
def preSaveProject (isNew : Bool) (p : Project) : Project :=
  if isNew ∧ p.phases.length = 0 then { p with phases := defaultPhases }
  else p

/-- `POST /api/projects` (todoRoutes.js lines 258-300): the creator is
    appended to the members when absent; `phases: phases || undefined`
    falls back to the schema's empty-array default when the body supplies
    no phase list (`none`); then the pre-save hook runs.  Supplied phases
    go through Mongoose casting (`castPhase`), which only fills a missing
    `color` with its schema default. -/
def createProject (userId newId : Nat) (name description : String)
    (members : Option (List Nat)) (phases : Option (List PhaseInput)) :
    Project :=
  let memberIds := members.getD []
  let memberIds :=
    if userId ∈ memberIds then memberIds else memberIds ++ [userId]
  preSaveProject true
    { id := newId, name := name, description := description,
      createdBy := userId, members := memberIds,
      phases := (phases.getD []).map castPhase, status := "active" }

/-- C8: a project created with an absent or empty phase list receives
    exactly the fixed default ordered list Backlog(1), In Progress(2),
    Review(3), Testing(4), Done(5); a project created with a non-empty
    phase list keeps the supplied phases — the stored list is the supplied
    list (under schema casting, which preserves every supplied name, order
    and color and only fills an absent color with a default). -/
theorem project_default_phases
    (userId newId : Nat) (name description : String)
    (members : Option (List Nat)) :
    (∀ phases : Option (List PhaseInput),
        phases = none ∨ phases = some [] →
        (createProject userId newId name description members phases).phases
          = defaultPhases)
    ∧ (∀ ps : List PhaseInput, ps ≠ [] →
        (createProject userId newId name description members
            (some ps)).phases = ps.map castPhase
        ∧ (ps.map castPhase).map Phase.name = ps.map PhaseInput.name
        ∧ (ps.map castPhase).map Phase.order = ps.map PhaseInput.order
        ∧ ∀ p ∈ ps, ∀ c, p.color = some c →
            (castPhase p).color = c) := by
  constructor
  · rintro phases (rfl | rfl) <;> simp [createProject, preSaveProject]
  · intro ps hne
    refine ⟨?_, ?_, ?_, ?_⟩
    · have hlen : (ps.map castPhase).length ≠ 0 := by
        simpa using fun h => hne (List.eq_nil_of_length_eq_zero h)
      simp [createProject, preSaveProject, hlen, hne]
    · simp [castPhase]
    · simp [castPhase]
    · intro p _ c hc
      simp [castPhase, hc]

/-- Witness for C8: an absent and an empty phase list both yield the five
    default phases; a concrete one-phase list is stored as supplied. -/
theorem project_default_phases_witness :
    (createProject 5 3 "p" "" none none).phases = defaultPhases
    ∧ (createProject 5 3 "p" "" none (some [])).phases = defaultPhases
    ∧ (createProject 5 3 "p" "" none
        (some [{ name := "Only", order := 1,
                 color := some "#111111" }])).phases
        = [{ name := "Only", order := 1, color := "#111111" }] := by
  refine ⟨(project_default_phases 5 3 "p" "" none).1 none (Or.inl rfl),
          (project_default_phases 5 3 "p" "" none).1 (some []) (Or.inr rfl),
          ?_⟩
  have h := ((project_default_phases 5 3 "p" "" none).2
    [{ name := "Only", order := 1, color := some "#111111" }]
    (by decide)).1
  simpa [castPhase] using h

/-- Result of `DELETE /api/projects/:id`: HTTP status plus the project and
    task stores after the request. -/
structure ProjectDeleteResult where
  status : Nat
  projects : List Project
  tasks : List Task
deriving Repr, DecidableEq

/-- `DELETE /api/projects/:id` (todoRoutes.js lines 347-382): 404 when the
    project is absent, 403 when the requester is not its creator; otherwise
    `Task.deleteMany(projectId = id)` removes every task of the project and
    `project.deleteOne()` removes the project itself. -/
def deleteProject (projects : List Project) (tasks : List Task)
    (projectId userId : Nat) : ProjectDeleteResult :=
  match findProject projects projectId with
  | none => { status := 404, projects := projects, tasks := tasks }
  | some project =>
    if project.createdBy ≠ userId then
      { status := 403, projects := projects, tasks := tasks }
    else
      { status := 200,
        projects := projects.filter (fun p => ¬ p.id == projectId),
        tasks := tasks.filter (fun t => ¬ t.projectId == projectId) }

/-- C9: a successful project deletion (project found, requester is its
    creator) removes exactly the tasks whose `projectId` is the deleted
    project's id: every such task is gone, every other task survives as
    the very same document, and nothing else enters the store. -/
theorem delete_project_cascades
    (projects : List Project) (tasks : List Task) (projectId userId : Nat)
    (project : Project)
    (hfind : findProject projects projectId = some project)
    (hcreator : project.createdBy = userId) :
    (deleteProject projects tasks projectId userId).status = 200
    ∧ (∀ t ∈ tasks, t.projectId = projectId →
        t ∉ (deleteProject projects tasks projectId userId).tasks)
    ∧ (∀ t ∈ tasks, t.projectId ≠ projectId →
        t ∈ (deleteProject projects tasks projectId userId).tasks)
    ∧ (∀ t ∈ (deleteProject projects tasks projectId userId).tasks,
        t ∈ tasks ∧ t.projectId ≠ projectId) := by
  have hres : deleteProject projects tasks projectId userId
      = { status := 200,
          projects := projects.filter (fun p => ¬ p.id == projectId),
          tasks := tasks.filter (fun t => ¬ t.projectId == projectId) } := by
    unfold deleteProject
    rw [hfind]
    simp [hcreator]
  refine ⟨by rw [hres], ?_, ?_, ?_⟩
  · intro t ht heq hmem
    rw [hres] at hmem
    have := (List.mem_filter.mp hmem).2
    simp [heq] at this
  · intro t ht hne
    rw [hres]
    exact List.mem_filter.mpr ⟨ht, by simpa using hne⟩
  · intro t hmem
    rw [hres] at hmem
    have := List.mem_filter.mp hmem
    exact ⟨this.1, by simpa using this.2⟩

/-- A task of a different project, used to check the deletion frame. -/
def otherTask : Task :=
  { id := 8, projectId := 3, title := "u", description := "",
    assignedTo := [5], createdBy := 5, currentPhase := "Backlog",
    phaseHistory := [], status := "pending", completedAt := none }

/-- Witness for C9: deleting project 2 removes `sampleTask` (project 2)
    and keeps `otherTask` (project 3). -/
theorem delete_project_cascades_witness :
    findProject [sampleProject] 2 = some sampleProject
    ∧ sampleProject.createdBy = 5
    ∧ (deleteProject [sampleProject] [sampleTask, otherTask] 2 5).status
        = 200
    ∧ sampleTask ∉ (deleteProject [sampleProject] [sampleTask, otherTask]
        2 5).tasks
    ∧ otherTask ∈ (deleteProject [sampleProject] [sampleTask, otherTask]
        2 5).tasks := by
  have h := delete_project_cascades [sampleProject] [sampleTask, otherTask]
    2 5 sampleProject (by decide) (by decide)
  exact ⟨by decide, by decide, h.1,
    h.2.1 sampleTask (by simp) (by decide),
    h.2.2.1 otherTask (by simp) (by decide)⟩

/-- `DELETE /api/projects/:projectId/tasks/:taskId` (todoRoutes.js lines
    621-650): 404 when the task is absent; otherwise — with no check of
    the requester against the task or its project — `task.deleteOne()`
    removes it and `taskDeleted` is emitted to the URL's project room. -/
def deleteTask (store : List Task) (projectId taskId userId : Nat) :
    TaskRouteResult :=
  match findTask store taskId with
  | none => { status := 404, tasks := store, events := [] }
  | some _ =>
    { status := 200, tasks := store.filter (fun t => ¬ t.id == taskId),
      events := [Event.taskDeleted ("project-" ++ toString projectId)
                   taskId] }

/-- C10: for every existing task and every authenticated requester — the
    requester id is arbitrary, unrelated to the task's creator, assignees
    or project — the delete succeeds with 200, removes the task, and emits
    `taskDeleted` to the request's project room. -/
theorem delete_task_no_authorization
    (store : List Task) (projectId taskId userId : Nat) (task : Task)
    (hfind : findTask store taskId = some task) :
    deleteTask store projectId taskId userId
      = { status := 200,
          tasks := store.filter (fun t => ¬ t.id == taskId),
          events := [Event.taskDeleted ("project-" ++ toString projectId)
                       taskId] } := by
  unfold deleteTask
  rw [hfind]

/-- Witness for C10: requester 7 — neither creator, assignee, nor project
    member of `sampleTask` — successfully deletes it. -/
theorem delete_task_no_authorization_witness :
    findTask [sampleTask] 1 = some sampleTask
    ∧ deleteTask [sampleTask] 2 1 7
        = { status := 200, tasks := [],
            events := [Event.taskDeleted "project-2" 1] } := by
  refine ⟨by decide, ?_⟩
  have h := delete_task_no_authorization [sampleTask] 2 1 7 sampleTask
    (by decide)
  simpa using h

/-- Body of `PUT /api/projects/:projectId/tasks/:taskId`.  The handler
    passes `req.body` straight to `findByIdAndUpdate`, which applies each
    supplied field to the document; the representative editable fields are
    carried here. -/
structure TaskUpdateBody where
  title : Option String
  description : Option String
  status : Option String
deriving Repr, DecidableEq

/-- Field application of `findByIdAndUpdate(taskId, req.body)`: each
    supplied field replaces the stored one, absent fields are untouched. -/
def applyUpdate (t : Task) (body : TaskUpdateBody) : Task :=
  { t with title := body.title.getD t.title,
           description := body.description.getD t.description,
           status := body.status.getD t.status }

/-- `PUT /api/projects/:projectId/tasks/:taskId` (todoRoutes.js lines
    582-616): 404 when the task is absent; otherwise the update is applied
    and `taskUpdated` emitted — the handler performs no check of the
    requester against the task's creator (or anything else). -/
def updateTask (store : List Task) (projectId taskId userId : Nat)
    (body : TaskUpdateBody) : TaskRouteResult :=
  match findTask store taskId with
  | none => { status := 404, tasks := store, events := [] }
  | some task =>
    { status := 200, tasks := saveTask store (applyUpdate task body),
      events := [Event.taskUpdated ("project-" ++ toString projectId)
                   taskId] }

/-- Counterexample for C5 as stated: requester 7 is not the creator (5) of
    `sampleTask`, yet the field edit succeeds with 200 — not 403 — and the
    stored task changes. -/
theorem task_update_not_creator_counterexample :
    sampleTask.createdBy = 5
    ∧ ¬ (7 = 5)
    ∧ (updateTask [sampleTask] 2 1 7
        { title := some "edited", description := none,
          status := none }).status = 200
    ∧ ¬ (updateTask [sampleTask] 2 1 7
        { title := some "edited", description := none,
          status := none }).status = 403
    ∧ ¬ (updateTask [sampleTask] 2 1 7
        { title := some "edited", description := none,
          status := none }).tasks = [sampleTask] := by
  decide

/-- C5 amended: the task field-edit operation checks nothing beyond
    authentication and task existence — every authenticated requester's
    edit of an existing task succeeds with 200, stores the updated fields,
    and emits `taskUpdated`; no forbidden outcome exists on this route. -/
theorem task_update_any_requester
    (store : List Task) (projectId taskId userId : Nat)
    (body : TaskUpdateBody) (task : Task)
    (hfind : findTask store taskId = some task) :
    updateTask store projectId taskId userId body
      = { status := 200, tasks := saveTask store (applyUpdate task body),
          events := [Event.taskUpdated ("project-" ++ toString projectId)
                       taskId] } := by
  unfold updateTask
  rw [hfind]

/-- Witness for the amended C5: non-creator 7 edits `sampleTask`'s title
    and the store now holds the edited document. -/
theorem task_update_any_requester_witness :
    findTask [sampleTask] 1 = some sampleTask
    ∧ updateTask [sampleTask] 2 1 7
        { title := some "edited", description := none, status := none }
      = { status := 200,
          tasks := [{ sampleTask with title := "edited" }],
          events := [Event.taskUpdated "project-2" 1] } := by
  refine ⟨by decide, ?_⟩
  have h := task_update_any_requester [sampleTask] 2 1 7
    { title := some "edited", description := none, status := none }
    sampleTask (by decide)
  rw [h]
  decide

/-- Result of `GET /api/messages`. -/
structure MessageListResult where
  status : Nat
  messages : List Message
deriving Repr, DecidableEq

/-- Whether a user may be considered a member of a team (creator counts
    as a member), the relation the specification's message-visibility rule
    speaks about. -/
def isTeamMember (team : Team) (userId : Nat) : Bool :=
  team.members.any (fun m => m == userId) || team.createdBy == userId

/-- `GET /api/messages` (messageRoutes.js lines 50-68): filter by the
    queried `teamId` (absent = the general channel, `teamId` null), oldest
    first, at most 100 — and nothing else: the requester's identity is
    never consulted.  The store is taken in `createdAt` order, as the
    `sort({createdAt: 1})` of the query returns it. -/
def getMessages (store : List Message) (userId : Nat)
    (teamId : Option Nat) : MessageListResult :=
  let filt : Message → Bool :=
    match teamId with
    | some t => fun m => m.teamId == some t
    | none => fun m => m.teamId == none
  { status := 200, messages := (store.filter filt).take 100 }

/-- A concrete team whose only member is its creator, user 1. -/
def sampleTeam : Team :=
  { id := 4, name := "core", createdBy := 1, members := [1] }

/-- A message addressed to `sampleTeam`. -/
def sampleTeamMessage : Message :=
  { id := 10, username := "ann", userId := 1, message := "hi",
    teamId := some 4, readBy := [], createdAt := 0 }

/-- Counterexample for C4 as stated: user 2 is not a member (nor the
    creator) of team 4, yet reading team 4's messages answers 200 with the
    message — no forbidden outcome. -/
theorem team_messages_read_counterexample :
    isTeamMember sampleTeam 2 = false
    ∧ getMessages [sampleTeamMessage] 2 (some 4)
        = { status := 200, messages := [sampleTeamMessage] }
    ∧ ¬ (getMessages [sampleTeamMessage] 2 (some 4)).status = 403 := by
  decide

/-- C4 amended: the message-read route performs no membership check:
    for every store and queried team, every authenticated requester
    receives the same answer — 200 with the first hundred messages of that
    team — so the result is independent of the requester's identity and
    never forbidden. -/
theorem team_messages_read_any_requester
    (store : List Message) (userId otherId teamId : Nat) :
    getMessages store userId (some teamId)
      = { status := 200,
          messages := (store.filter
            (fun m => m.teamId == some teamId)).take 100 }
    ∧ getMessages store userId (some teamId)
        = getMessages store otherId (some teamId) := by
  exact ⟨rfl, rfl⟩

end ToDoApp
